import Mathlib

/-!
Verification of the Funnel repository core: `FunnelAnalyzer.analyze_funnel`,
`FunnelAnalyzer.calculate_potential_impact` (src/funnel_analyzer.py) and
`DataGenerator.generate_funnel_data` / `_generate_realistic_funnel`
(src/data_generator.py).

Modelling conventions:
- Python dicts with string keys become association lists `List (String × _)`
  in insertion order (funnel stage order).
- Python ints become `ℤ`; Python floats become `ℚ` (exact arithmetic).
- Python `int(x)` (truncation toward zero) becomes `pytrunc`.
- Python `round(x, 1)` becomes `round1` (round half to even, as CPython).
- Code that can raise (`ZeroDivisionError` on a zero predecessor count or an
  empty traffic-source list) is embedded with `Option`, `none` meaning the
  Python call raises.
- The generator's random draws (`random.uniform`, `random.random`,
  `random.choice`) are passed as explicit parameters.
-/

/-- Truncation toward zero, the semantics of Python `int(x)` on a float. -/
def pytrunc (q : ℚ) : ℤ :=
  if q < 0 then -(Rat.floor (-q)) else Rat.floor q

/-- Round a rational to the nearest integer, halves to even (CPython rounding). -/
def roundHalfEven (q : ℚ) : ℤ :=
  let f := Rat.floor q
  let r := q - (f : ℚ)
  if r < 1/2 then f
  else if 1/2 < r then f + 1
  else if f % 2 = 0 then f else f + 1

/-- Python `round(x, 1)`: one decimal digit, halves to even. -/
def round1 (q : ℚ) : ℚ :=
  (roundHalfEven (10 * q) : ℚ) / 10

/-- Stage status string in the analysis table:
`Needs Attention` when flagged, `Healthy` otherwise. -/
inductive Status where
  | healthy : Status
  | needsAttention : Status
deriving DecidableEq, Repr, Inhabited

/-- One row of `stage_analysis` as built in `analyze_funnel`
(src/funnel_analyzer.py lines 44-50). `conversionRate` and `dropOff` are the
values rounded to one decimal, exactly as stored in the table. -/
structure StageMetric where
  stage : String
  count : ℤ
  conversionRate : ℚ
  dropOff : ℚ
  status : Status
deriving DecidableEq, Repr, Inhabited

/-- The dictionary returned by `analyze_funnel`
(src/funnel_analyzer.py lines 64-73). -/
structure AnalysisResult where
  stage_analysis : List StageMetric
  problematic_stages : List String
  overall_conversion : ℚ
  biggest_drop_stage : Option String
  biggest_drop_value : ℚ
  threshold_used : ℚ
  total_visitors : ℤ
  final_conversions : ℤ
deriving DecidableEq, Repr

/-- The per-stage loop of `analyze_funnel` for stage index `i > 0`
(src/funnel_analyzer.py lines 30-50), carrying the previous stage count and
the `problematic_stages` accumulator.  Returns `none` when Python would raise
`ZeroDivisionError` (`values[i] / values[i-1]` with `values[i-1] == 0`). -/
def analyzeGo (t : ℚ) : ℤ → List (String × ℤ) → List String →
    Option (List StageMetric × List String)
  | _, [], prob => some ([], prob)
  | prev, (s, c) :: rest, prob =>
    if prev = 0 then none
    else
      let conversion_rate := ((c : ℚ) / (prev : ℚ)) * 100
      let drop_off := 100 - conversion_rate
      let prob2 := if t < drop_off then prob ++ [s] else prob
      let metric : StageMetric :=
        { stage := s, count := c, conversionRate := round1 conversion_rate,
          dropOff := round1 drop_off,
          status := if s ∈ prob2 then Status.needsAttention else Status.healthy }
      match analyzeGo t c rest prob2 with
      | none => none
      | some (ms, probF) => some (metric :: ms, probF)

/-- The biggest-drop loop of `analyze_funnel`
(src/funnel_analyzer.py lines 56-62): a fold over the non-baseline rows,
comparing the (rounded) `Drop-off (%)` entries with strict `>`. -/
def biggestDropGo : List StageMetric → Option String → ℚ → Option String × ℚ
  | [], s, v => (s, v)
  | m :: ms, s, v =>
    if v < m.dropOff then biggestDropGo ms (some m.stage) m.dropOff
    else biggestDropGo ms s v

/-- `FunnelAnalyzer.analyze_funnel` (src/funnel_analyzer.py lines 12-73).
`none` means the Python call raises (`ZeroDivisionError` from a zero
predecessor count or from `values[-1] / values[0]`, or an empty dict). -/
def analyze_funnel (funnel_data : List (String × ℤ)) (threshold : ℚ) :
    Option AnalysisResult :=
  match funnel_data with
  | [] => none
  | (s0, c0) :: rest =>
    let metric0 : StageMetric :=
      { stage := s0, count := c0, conversionRate := round1 100,
        dropOff := round1 0,
        status := if s0 ∈ ([] : List String) then Status.needsAttention
                  else Status.healthy }
    match analyzeGo threshold c0 rest [] with
    | none => none
    | some (ms, probF) =>
      if c0 = 0 then none
      else
        let bd := biggestDropGo ms none 0
        some
          { stage_analysis := metric0 :: ms,
            problematic_stages := probF,
            overall_conversion :=
              (((rest.map Prod.snd).getLastD c0 : ℚ) / (c0 : ℚ)) * 100,
            biggest_drop_stage := bd.1,
            biggest_drop_value := bd.2,
            threshold_used := threshold,
            total_visitors := c0,
            final_conversions := (rest.map Prod.snd).getLastD c0 }

/-- The raw (unrounded) drop-off of each non-baseline stage, paired with its
stage name: `100 - (values[i] / values[i-1]) * 100` in stage order
(src/funnel_analyzer.py lines 37-38). -/
def dropList : ℤ → List (String × ℤ) → List (String × ℚ)
  | _, [] => []
  | prev, (s, c) :: rest =>
    (s, 100 - ((c : ℚ) / (prev : ℚ)) * 100) :: dropList c rest

/-- The raw drop-offs of a whole funnel (first stage is the baseline). -/
def raw_drop_offs (funnel_data : List (String × ℤ)) : List (String × ℚ) :=
  match funnel_data with
  | [] => []
  | (_, c0) :: rest => dropList c0 rest

/-- The names appended to `problematic_stages` by the loop: the non-baseline
stages whose raw drop-off strictly exceeds the threshold, in stage order
(src/funnel_analyzer.py lines 40-42). -/
def flagged (t : ℚ) (prev : ℤ) (rest : List (String × ℤ)) : List String :=
  ((dropList prev rest).filter (fun p => decide (t < p.2))).map Prod.fst

/-- Total (`Option`-free) form of the stage loop, used to characterise
`analyzeGo` on its success paths. -/
def mkMetrics (t : ℚ) : List String → ℤ → List (String × ℤ) → List StageMetric
  | _, _, [] => []
  | prob, prev, (s, c) :: rest =>
    let conversion_rate := ((c : ℚ) / (prev : ℚ)) * 100
    let drop_off := 100 - conversion_rate
    let prob2 := if t < drop_off then prob ++ [s] else prob
    { stage := s, count := c, conversionRate := round1 conversion_rate,
      dropOff := round1 drop_off,
      status := if s ∈ prob2 then Status.needsAttention else Status.healthy }
      :: mkMetrics t prob2 c rest

/-- One entry of the dictionary built by `calculate_potential_impact`
(src/funnel_analyzer.py lines 110-115). -/
structure ImpactEntry where
  current_count : ℤ
  potential_count : ℤ
  potential_increase : ℤ
  improvement_percentage : ℚ
deriving DecidableEq, Repr

/-- Python dict assignment `d[k] = v` on an association list: overwrite the
existing binding if the key is present, otherwise append. -/
def dictSet (l : List (String × ImpactEntry)) (k : String) (v : ImpactEntry) :
    List (String × ImpactEntry) :=
  if l.any (fun p => decide (p.1 = k)) then
    l.map (fun p => if p.1 = k then (k, v) else p)
  else l ++ [(k, v)]

/-- The previous-stage search loop of `calculate_potential_impact`
(src/funnel_analyzer.py lines 99-103): the first row whose name matches gives
`prev_stage_index = i - 1`; `none` when no row matches (Python leaves the
variable `None`). -/
def findPrevIndex (name : String) : List StageMetric → Nat → Option ℤ
  | [], _ => none
  | s :: rest, i =>
    if s.stage = name then some ((i : ℤ) - 1) else findPrevIndex name rest (i + 1)

/-- The body of the `for stage_data in stage_analysis` loop of
`calculate_potential_impact` (src/funnel_analyzer.py lines 90-115). -/
def impactStep (r : AnalysisResult) (acc : List (String × ImpactEntry))
    (stage_data : StageMetric) : List (String × ImpactEntry) :=
  if stage_data.stage ∈ r.problematic_stages then
    let current_count := stage_data.count
    let threshold := r.threshold_used
    let improved_conversion := (100 - threshold) / 100
    match findPrevIndex stage_data.stage r.stage_analysis 0 with
    | none => acc
    | some prev_stage_index =>
      if 0 ≤ prev_stage_index then
        let prev_count :=
          (r.stage_analysis.getD prev_stage_index.toNat default).count
        let potential_count := pytrunc ((prev_count : ℚ) * improved_conversion)
        let potential_increase := potential_count - current_count
        dictSet acc stage_data.stage
          { current_count := current_count,
            potential_count := potential_count,
            potential_increase := potential_increase,
            improvement_percentage :=
              if 0 < current_count then
                ((potential_increase : ℚ) / (current_count : ℚ)) * 100
              else 0 }
      else acc
  else acc

/-- `FunnelAnalyzer.calculate_potential_impact`
(src/funnel_analyzer.py lines 75-117). -/
def calculate_potential_impact (analysis_results : AnalysisResult) :
    List (String × ImpactEntry) :=
  analysis_results.stage_analysis.foldl (impactStep analysis_results) []

/-- The dictionary entry (if any) that one iteration of the
`calculate_potential_impact` loop assigns for a row: `none` when the row is
skipped, `some (key, entry)` when `impact_analysis[key] = entry` is executed.
Used to characterise the fold. -/
def impactOf (r : AnalysisResult) (stage_data : StageMetric) :
    Option (String × ImpactEntry) :=
  if stage_data.stage ∈ r.problematic_stages then
    let current_count := stage_data.count
    let threshold := r.threshold_used
    let improved_conversion := (100 - threshold) / 100
    match findPrevIndex stage_data.stage r.stage_analysis 0 with
    | none => none
    | some prev_stage_index =>
      if 0 ≤ prev_stage_index then
        let prev_count :=
          (r.stage_analysis.getD prev_stage_index.toNat default).count
        let potential_count := pytrunc ((prev_count : ℚ) * improved_conversion)
        let potential_increase := potential_count - current_count
        some (stage_data.stage,
          { current_count := current_count,
            potential_count := potential_count,
            potential_increase := potential_increase,
            improvement_percentage :=
              if 0 < current_count then
                ((potential_increase : ℚ) / (current_count : ℚ)) * 100
              else 0 })
      else none
  else none

/-- The impact entry the spec prescribes for a problematic stage with the
given predecessor count, current count and threshold (spec section 3,
ImpactAnalysis). -/
def specImpactEntry (prevCount currentCount : ℤ) (threshold : ℚ) : ImpactEntry :=
  let potential_count := pytrunc ((prevCount : ℚ) * ((100 - threshold) / 100))
  { current_count := currentCount,
    potential_count := potential_count,
    potential_increase := potential_count - currentCount,
    improvement_percentage :=
      if 0 < currentCount then
        (((potential_count - currentCount : ℤ) : ℚ) / (currentCount : ℚ)) * 100
      else 0 }

/-- Spec-side value for the biggest drop: the largest rounded drop-off among
the non-baseline rows, floored at 0 (spec section 4.1). -/
def specBiggestDropValue (ms : List StageMetric) : ℚ :=
  (ms.map (fun m => m.dropOff)).foldr max 0

/-- Spec-side stage for the biggest drop: the first non-baseline row whose
rounded drop-off attains the maximum, `none` when no row has a positive
drop-off (spec section 4.1). -/
def specBiggestDropStage (ms : List StageMetric) : Option String :=
  if 0 < specBiggestDropValue ms then
    (ms.find? (fun m => decide (m.dropOff = specBiggestDropValue ms))).map
      (fun m => m.stage)
  else none

/-- Python `dict.get(key, default)` on an association list. -/
def dictGet (l : List (String × ℚ)) (key : String) (default : ℚ) : ℚ :=
  match l.find? (fun p => decide (p.1 = key)) with
  | some p => p.2
  | none => default

/-- `DataGenerator.traffic_multipliers` (src/data_generator.py lines 12-18). -/
def traffic_multipliers : List (String × ℚ) :=
  [( "Google Ads", 12/10), ( "Facebook Ads", 1), ( "Organic", 8/10),
   ( "Direct", 6/10), ( "Email", 4/10)]

/-- `DataGenerator.time_multipliers` (src/data_generator.py lines 20-24). -/
def time_multipliers : List (String × ℚ) :=
  [( "Last 7 Days", 3/10), ( "Last 30 Days", 1), ( "Last 90 Days", 28/10)]

/-- The traffic multiplier of a source list: arithmetic mean of the per-source
multipliers, unknown sources contributing 1.0
(src/data_generator.py line 48). -/
def traffic_multiplier_of (sources : List String) : ℚ :=
  (sources.map (fun s => dictGet traffic_multipliers s 1)).sum /
    (sources.length : ℚ)

/-- `DataGenerator._generate_realistic_funnel`
(src/data_generator.py lines 62-107).  The random draws are parameters:
`v2l l2m m2s` are the three `random.uniform` rate draws, `injectDraw` the
`random.random()` value compared with 0.3, `chooseLM` the `random.choice`
between the two stages, `degradedDraw` the degraded-rate `random.uniform`
draw. -/
def generate_realistic_funnel (visitors : ℤ) (v2l l2m m2s : ℚ)
    (injectDraw : ℚ) (chooseLM : Bool) (degradedDraw : ℚ) :
    List (String × ℤ) :=
  let lead_to_mql_rate :=
    if injectDraw < 3/10 ∧ chooseLM then degradedDraw else l2m
  let mql_to_sql_rate :=
    if injectDraw < 3/10 ∧ ¬chooseLM then degradedDraw else m2s
  let leads := pytrunc ((visitors : ℚ) * v2l)
  let mqls := pytrunc ((leads : ℚ) * lead_to_mql_rate)
  let sqls := pytrunc ((mqls : ℚ) * mql_to_sql_rate)
  let leads2 := max 1 leads
  let mqls2 := max 1 mqls
  let sqls2 := max 1 sqls
  [( "Visitor", visitors), ( "Lead", leads2), ( "MQL", mqls2),
   ( "SQL", sqls2)]

/-- `DataGenerator.generate_funnel_data` (src/data_generator.py lines 26-60).
`traffic_sources = none` is Python `None` (replaced by the default list in
the body); `randomness` is the `random.uniform(0.8, 1.2)` jitter draw; the
remaining parameters are the draws of `_generate_realistic_funnel`.
`none` means the Python call raises (`ZeroDivisionError` when the explicit
source list is empty). -/
def generate_funnel_data (time_period : String)
    (traffic_sources : Option (List String)) (randomness : ℚ)
    (v2l l2m m2s injectDraw : ℚ) (chooseLM : Bool) (degradedDraw : ℚ) :
    Option (List (String × ℤ)) :=
  let sources :=
    match traffic_sources with
    | none => [ "Google Ads", "Facebook Ads"]
    | some l => l
  if sources.length = 0 then none
  else
    let base_visitors : ℚ := 1000
    let time_multiplier := dictGet time_multipliers time_period 1
    let traffic_multiplier := traffic_multiplier_of sources
    let total_visitors := pytrunc (base_visitors * time_multiplier * traffic_multiplier)
    let total_visitors2 := pytrunc ((total_visitors : ℚ) * randomness)
    some (generate_realistic_funnel total_visitors2 v2l l2m m2s injectDraw
      chooseLM degradedDraw)

/-- Spec-side rounding to the nearest integer (the spec's `round`), halves to
even as in Python. -/
def specRound (q : ℚ) : ℤ := roundHalfEven q

/-- The sample funnel used by the spec's scenarios:
Visitor 1000, Lead 250, MQL 125, SQL 50. -/
def sampleFunnel : List (String × ℤ) :=
  [( "Visitor", 1000), ( "Lead", 250), ( "MQL", 125), ( "SQL", 50)]

/-- The analysis of `sampleFunnel` at threshold 35. -/
def sampleResult35 : AnalysisResult :=
  { stage_analysis :=
      [{ stage := "Visitor", count := 1000, conversionRate := 100,
         dropOff := 0, status := Status.healthy },
       { stage := "Lead", count := 250, conversionRate := 25,
         dropOff := 75, status := Status.needsAttention },
       { stage := "MQL", count := 125, conversionRate := 50,
         dropOff := 50, status := Status.needsAttention },
       { stage := "SQL", count := 50, conversionRate := 40,
         dropOff := 60, status := Status.needsAttention }],
    problematic_stages := [ "Lead", "MQL", "SQL"],
    overall_conversion := 5,
    biggest_drop_stage := some "Lead",
    biggest_drop_value := 75,
    threshold_used := 35,
    total_visitors := 1000,
    final_conversions := 50 }

/-- The analysis of `sampleFunnel` at threshold 50 (only Lead and SQL exceed
the threshold; MQL sits exactly at it). -/
def sampleResult50 : AnalysisResult :=
  { stage_analysis :=
      [{ stage := "Visitor", count := 1000, conversionRate := 100,
         dropOff := 0, status := Status.healthy },
       { stage := "Lead", count := 250, conversionRate := 25,
         dropOff := 75, status := Status.needsAttention },
       { stage := "MQL", count := 125, conversionRate := 50,
         dropOff := 50, status := Status.healthy },
       { stage := "SQL", count := 50, conversionRate := 40,
         dropOff := 60, status := Status.needsAttention }],
    problematic_stages := [ "Lead", "SQL"],
    overall_conversion := 5,
    biggest_drop_stage := some "Lead",
    biggest_drop_value := 75,
    threshold_used := 50,
    total_visitors := 1000,
    final_conversions := 50 }

/-- The analysis of `sampleFunnel` at threshold 60 (only Lead exceeds it). -/
def sampleResult60 : AnalysisResult :=
  { stage_analysis :=
      [{ stage := "Visitor", count := 1000, conversionRate := 100,
         dropOff := 0, status := Status.healthy },
       { stage := "Lead", count := 250, conversionRate := 25,
         dropOff := 75, status := Status.needsAttention },
       { stage := "MQL", count := 125, conversionRate := 50,
         dropOff := 50, status := Status.healthy },
       { stage := "SQL", count := 50, conversionRate := 40,
         dropOff := 60, status := Status.healthy }],
    problematic_stages := [ "Lead"],
    overall_conversion := 5,
    biggest_drop_stage := some "Lead",
    biggest_drop_value := 75,
    threshold_used := 60,
    total_visitors := 1000,
    final_conversions := 50 }

/-- A two-stage funnel whose single drop-off, 200/3, is not representable in
one decimal: Visitor 3, Lead 1. -/
def thirdFunnel : List (String × ℤ) :=
  [( "Visitor", 3), ( "Lead", 1)]

/-- The analysis of `thirdFunnel` at threshold 35: the Lead drop-off is
stored rounded as 66.7, and the biggest-drop value is that rounded 66.7. -/
def thirdResult : AnalysisResult :=
  { stage_analysis :=
      [{ stage := "Visitor", count := 3, conversionRate := 100,
         dropOff := 0, status := Status.healthy },
       { stage := "Lead", count := 1, conversionRate := 333/10,
         dropOff := 667/10, status := Status.needsAttention }],
    problematic_stages := [ "Lead"],
    overall_conversion := 100/3,
    biggest_drop_stage := some "Lead",
    biggest_drop_value := 667/10,
    threshold_used := 35,
    total_visitors := 3,
    final_conversions := 1 }

theorem analyzeGo_eq_some {t : ℚ} :
    ∀ {rest : List (String × ℤ)} {prev : ℤ} {prob ms probF},
      analyzeGo t prev rest prob = some (ms, probF) →
      ms = mkMetrics t prob prev rest ∧ probF = prob ++ flagged t prev rest := by
  intro rest
  induction rest with
  | nil =>
    intro prev prob ms probF h
    simp only [analyzeGo] at h
    obtain ⟨h1, h2⟩ := Prod.mk.injEq _ _ _ _ ▸ (Option.some.injEq _ _ ▸ h)
    constructor
    · simp [mkMetrics, ← h1]
    · simp [flagged, dropList, ← h2]
  | cons p rest ih =>
    intro prev prob ms probF h
    obtain ⟨s, c⟩ := p
    simp only [analyzeGo] at h
    by_cases hz : prev = 0
    · simp [hz] at h
    · rw [if_neg hz] at h
      rcases hrec : analyzeGo t c rest
          (if t < 100 - (c : ℚ) / (prev : ℚ) * 100 then prob ++ [s] else prob) with
        _ | ⟨ms', probF'⟩
      · rw [hrec] at h
        simp at h
      · rw [hrec] at h
        simp only [Option.some.injEq, Prod.mk.injEq] at h
        obtain ⟨hms, hpf⟩ := h
        obtain ⟨ih1, ih2⟩ := ih hrec
        constructor
        · rw [← hms, ih1]
          simp [mkMetrics]
        · rw [← hpf, ih2]
          show _ = prob ++ ((dropList prev ((s, c) :: rest)).filter
            (fun p => decide (t < p.2))).map Prod.fst
          rw [show dropList prev ((s, c) :: rest) =
            (s, 100 - ((c : ℚ) / (prev : ℚ)) * 100) :: dropList c rest from rfl,
            List.filter_cons]
          by_cases hlt : t < 100 - (c : ℚ) / (prev : ℚ) * 100
          · simp [hlt, flagged]
          · simp [hlt, flagged]

theorem analyzeGo_zero_pred {t : ℚ} :
    ∀ (rest : List (String × ℤ)) (prev : ℤ) (prob : List String) (j : Nat)
      (h : j + 1 < rest.length),
      (rest.get ⟨j, Nat.lt_of_succ_lt h⟩).2 = 0 →
      analyzeGo t prev rest prob = none := by
  intro rest
  induction rest with
  | nil => intro prev prob j h; simp at h
  | cons p rest ih =>
    intro prev prob j h hz
    obtain ⟨s, c⟩ := p
    by_cases hprev : prev = 0
    · simp [analyzeGo, hprev]
    · cases j with
      | zero =>
        simp only [List.get] at hz
        simp only [List.length_cons, Nat.lt_add_one_iff] at h
        obtain ⟨r, rest2, rfl⟩ : ∃ r rest2, rest = r :: rest2 := by
          cases rest with
          | nil => simp at h
          | cons r rest2 => exact ⟨r, rest2, rfl⟩
        simp [analyzeGo, hprev, hz]
      | succ j2 =>
        have hlen : j2 + 1 < rest.length := by
          simpa [Nat.succ_lt_succ_iff] using h
        have hz2 : (rest.get ⟨j2, Nat.lt_of_succ_lt hlen⟩).2 = 0 := by
          simpa [List.get] using hz
        have hrec := ih c
          (if t < 100 - (c : ℚ) / (prev : ℚ) * 100 then prob ++ [s] else prob)
          j2 hlen hz2
        simp [analyzeGo, hprev, hrec]

/-- C1: for funnel_data Visitor 1000, Lead 250, MQL 125, SQL 50 and threshold
35, `analyze_funnel` reports Lead with conversion 25.0 and drop-off 75.0, MQL
with 50.0 and 50.0, SQL with 40.0 and 60.0, all three problematic, overall
conversion 5.0, biggest drop at Lead with value 75.0. -/
theorem C1_fixed_scenario :
    analyze_funnel
        [( "Visitor", 1000), ( "Lead", 250), ( "MQL", 125), ( "SQL", 50)] 35 =
      some
        { stage_analysis :=
            [{ stage := "Visitor", count := 1000, conversionRate := 100,
               dropOff := 0, status := Status.healthy },
             { stage := "Lead", count := 250, conversionRate := 25,
               dropOff := 75, status := Status.needsAttention },
             { stage := "MQL", count := 125, conversionRate := 50,
               dropOff := 50, status := Status.needsAttention },
             { stage := "SQL", count := 50, conversionRate := 40,
               dropOff := 60, status := Status.needsAttention }],
          problematic_stages := [ "Lead", "MQL", "SQL"],
          overall_conversion := 5,
          biggest_drop_stage := some "Lead",
          biggest_drop_value := 75,
          threshold_used := 35,
          total_visitors := 1000,
          final_conversions := 50 } := by
  set_option maxRecDepth 4000 in
  with_unfolding_all decide

/-- C2 counterexample: on funnel_data Visitor 100, Lead 0, MQL 5, SQL 1 the
code raises `ZeroDivisionError` at the MQL stage (values[2] / values[1] with
values[1] == 0) instead of recovering with 0 percent conversion, so the call
produces no result at all. -/
theorem C2_counterexample :
    analyze_funnel [( "Visitor", 100), ( "Lead", 0), ( "MQL", 5), ( "SQL", 1)]
      35 = none := by
  with_unfolding_all decide

/-- C2 amended: whenever some stage with index i > 0 has a predecessor count
of 0, `analyze_funnel` propagates the division-by-zero error (the call
raises), rather than assigning the stage 0 percent conversion and 100 percent
drop-off. -/
theorem C2_zero_predecessor_errors (data : List (String × ℤ)) (t : ℚ)
    (j : Nat) (h : j + 1 < data.length)
    (hz : (data.get ⟨j, Nat.lt_of_succ_lt h⟩).2 = 0) :
    analyze_funnel data t = none := by
  cases data with
  | nil => simp at h
  | cons p rest =>
    obtain ⟨s0, c0⟩ := p
    cases j with
    | zero =>
      simp only [List.get] at hz
      simp only [List.length_cons, Nat.lt_add_one_iff] at h
      obtain ⟨r, rest2, rfl⟩ : ∃ r rest2, rest = r :: rest2 := by
        cases rest with
        | nil => simp at h
        | cons r rest2 => exact ⟨r, rest2, rfl⟩
      simp [analyze_funnel, analyzeGo, hz]
    | succ j2 =>
      have hlen : j2 + 1 < rest.length := by
        simpa [Nat.succ_lt_succ_iff] using h
      have hz2 : (rest.get ⟨j2, Nat.lt_of_succ_lt hlen⟩).2 = 0 := by
        simpa [List.get] using hz
      have hrec := analyzeGo_zero_pred (t := t) rest c0 [] j2 hlen hz2
      simp [analyze_funnel, hrec]

/-- C2 amended, witness: on funnel_data Visitor 100, Lead 0, MQL 5, SQL 1 with
threshold 50, the analysis raises. -/
theorem C2_zero_predecessor_errors_witness :
    analyze_funnel [( "Visitor", 100), ( "Lead", 0), ( "MQL", 5), ( "SQL", 1)]
      50 = none :=
  C2_zero_predecessor_errors
    [( "Visitor", 100), ( "Lead", 0), ( "MQL", 5), ( "SQL", 1)] 50 1
    (by decide) (by decide)

theorem flagged_nil (t : ℚ) (prev : ℤ) : flagged t prev [] = [] := rfl

theorem flagged_cons (t : ℚ) (prev : ℤ) (s : String) (c : ℤ)
    (rest : List (String × ℤ)) :
    flagged t prev ((s, c) :: rest) =
      (if t < 100 - ((c : ℚ) / (prev : ℚ)) * 100 then [s] else []) ++
        flagged t c rest := by
  show ((dropList prev ((s, c) :: rest)).filter
      (fun p => decide (t < p.2))).map Prod.fst = _
  rw [show dropList prev ((s, c) :: rest) =
    (s, 100 - ((c : ℚ) / (prev : ℚ)) * 100) :: dropList c rest from rfl,
    List.filter_cons]
  by_cases hlt : t < 100 - ((c : ℚ) / (prev : ℚ)) * 100
  · simp [hlt, flagged]
  · simp [hlt, flagged]

theorem dropList_fst :
    ∀ (rest : List (String × ℤ)) (prev : ℤ),
      (dropList prev rest).map Prod.fst = rest.map Prod.fst := by
  intro rest
  induction rest with
  | nil => intro prev; rfl
  | cons p rest ih =>
    intro prev
    obtain ⟨s, c⟩ := p
    show (((s, _) :: dropList c rest).map Prod.fst) = _
    simp [ih c]

theorem mem_flagged_sub {t : ℚ} {prev : ℤ} {rest : List (String × ℤ)}
    {s : String} (h : s ∈ flagged t prev rest) : s ∈ rest.map Prod.fst := by
  rw [flagged] at h
  rw [← dropList_fst rest prev]
  rcases List.mem_map.mp h with ⟨p, hp, rfl⟩
  exact List.mem_map.mpr ⟨p, (List.mem_filter.mp hp).1, rfl⟩

theorem analyzeGo_isSome {t : ℚ} :
    ∀ (rest : List (String × ℤ)) (prev : ℤ) (prob : List String),
      prev ≠ 0 → (∀ p ∈ rest, p.2 ≠ 0) →
      analyzeGo t prev rest prob =
        some (mkMetrics t prob prev rest, prob ++ flagged t prev rest) := by
  intro rest
  induction rest with
  | nil => intro prev prob _ _; simp [analyzeGo, mkMetrics, flagged, dropList]
  | cons p rest ih =>
    intro prev prob hprev hc
    obtain ⟨s, c⟩ := p
    have hcn : c ≠ 0 := hc (s, c) (List.mem_cons_self _ _)
    have hrest : ∀ p ∈ rest, p.2 ≠ 0 := fun p hp => hc p (List.mem_cons_of_mem _ hp)
    have hrec := ih c
      (if t < 100 - (c : ℚ) / (prev : ℚ) * 100 then prob ++ [s] else prob)
      hcn hrest
    simp only [analyzeGo, if_neg hprev, hrec, mkMetrics, flagged_cons]
    by_cases hlt : t < 100 - (c : ℚ) / (prev : ℚ) * 100
    · simp [hlt]
    · simp [hlt]

theorem analyze_funnel_eq_some {data : List (String × ℤ)} {t : ℚ}
    {r : AnalysisResult} (h : analyze_funnel data t = some r) :
    ∃ s0 c0 rest, data = (s0, c0) :: rest ∧ c0 ≠ 0 ∧
      r.stage_analysis =
        { stage := s0, count := c0, conversionRate := round1 100,
          dropOff := round1 0, status := Status.healthy }
          :: mkMetrics t [] c0 rest ∧
      r.problematic_stages = flagged t c0 rest ∧
      r.biggest_drop_stage = (biggestDropGo (mkMetrics t [] c0 rest) none 0).1 ∧
      r.biggest_drop_value = (biggestDropGo (mkMetrics t [] c0 rest) none 0).2 ∧
      r.threshold_used = t := by
  cases data with
  | nil => simp [analyze_funnel] at h
  | cons p rest =>
    obtain ⟨s0, c0⟩ := p
    refine ⟨s0, c0, rest, rfl, ?_⟩
    simp only [analyze_funnel] at h
    rcases hgo : analyzeGo t c0 rest [] with _ | ⟨ms, probF⟩
    · rw [hgo] at h; exact absurd h (by simp)
    · rw [hgo] at h
      dsimp only at h
      by_cases hz : c0 = 0
      · rw [if_pos hz] at h; exact absurd h (by simp)
      · rw [if_neg hz] at h
        obtain ⟨h1, h2⟩ := analyzeGo_eq_some hgo
        have hr := Option.some.inj h
        refine ⟨hz, ?_, ?_, ?_, ?_, ?_⟩ <;>
          simp [← hr, h1, h2]

theorem analyze_funnel_isSome {t : ℚ} (s0 : String) (c0 : ℤ)
    (rest : List (String × ℤ)) (h0 : c0 ≠ 0) (hrest : ∀ p ∈ rest, p.2 ≠ 0) :
    ∃ r, analyze_funnel ((s0, c0) :: rest) t = some r := by
  simp only [analyze_funnel, analyzeGo_isSome rest c0 [] h0 hrest, if_neg h0]
  exact ⟨_, rfl⟩

/-- C3: for every funnel with at least two stages, all counts positive and
any threshold, the baseline stage of the analysis has conversion rate 100.0,
drop-off 0.0, Healthy status, and its name is not in problematic_stages. -/
theorem C3_baseline_healthy (data : List (String × ℤ)) (t : ℚ)
    (h2 : 2 ≤ data.length) (hpos : ∀ p ∈ data, 0 < p.2)
    (hnd : (data.map Prod.fst).Nodup) :
    ∃ r m ms, analyze_funnel data t = some r ∧
      r.stage_analysis = m :: ms ∧
      m.conversionRate = 100 ∧ m.dropOff = 0 ∧ m.status = Status.healthy ∧
      m.stage ∉ r.problematic_stages := by
  cases data with
  | nil => simp at h2
  | cons p rest =>
    obtain ⟨s0, c0⟩ := p
    have h0 : c0 ≠ 0 := ne_of_gt (hpos (s0, c0) (List.mem_cons_self _ _))
    have hrest : ∀ p ∈ rest, p.2 ≠ 0 :=
      fun p hp => ne_of_gt (hpos p (List.mem_cons_of_mem _ hp))
    obtain ⟨r, hr⟩ := analyze_funnel_isSome (t := t) s0 c0 rest h0 hrest
    obtain ⟨s0', c0', rest', heq, _, hsa, hprob, _, _, _⟩ :=
      analyze_funnel_eq_some hr
    injection heq with hp ht
    injection hp with hs hc
    subst hs
    subst hc
    subst ht
    refine ⟨r, _, _, hr, hsa, ?_, ?_, rfl, ?_⟩
    · show round1 100 = 100
      with_unfolding_all decide
    · show round1 0 = 0
      with_unfolding_all decide
    · show s0 ∉ r.problematic_stages
      rw [hprob]
      intro hmem
      have hsub := mem_flagged_sub hmem
      have hnd2 : s0 ∉ rest.map Prod.fst :=
        (List.nodup_cons.mp (by simpa using hnd)).1
      exact hnd2 hsub

/-- C3 witness: the property at funnel Visitor 1000, Lead 400, MQL 200,
SQL 80 with threshold 40. -/
theorem C3_baseline_healthy_witness :
    ∃ r m ms,
      analyze_funnel
          [( "Visitor", 1000), ( "Lead", 400), ( "MQL", 200), ( "SQL", 80)]
          40 = some r ∧
      r.stage_analysis = m :: ms ∧
      m.conversionRate = 100 ∧ m.dropOff = 0 ∧ m.status = Status.healthy ∧
      m.stage ∉ r.problematic_stages :=
  C3_baseline_healthy
    [( "Visitor", 1000), ( "Lead", 400), ( "MQL", 200), ( "SQL", 80)] 40
    (by decide) (by decide) (by decide)

theorem mem_flagged_iff {t : ℚ} {prev : ℤ} {rest : List (String × ℤ)}
    {s : String} :
    s ∈ flagged t prev rest ↔
      ∃ p ∈ dropList prev rest, t < p.2 ∧ p.1 = s := by
  rw [flagged]
  constructor
  · intro h
    rcases List.mem_map.mp h with ⟨p, hp, rfl⟩
    rcases List.mem_filter.mp hp with ⟨hp1, hp2⟩
    exact ⟨p, hp1, by simpa using hp2, rfl⟩
  · rintro ⟨p, hp, hlt, rfl⟩
    exact List.mem_map.mpr ⟨p, List.mem_filter.mpr ⟨hp, by simpa using hlt⟩, rfl⟩

theorem mkMetrics_status {t : ℚ} :
    ∀ (rest : List (String × ℤ)) (prob : List String) (prev : ℤ),
      (rest.map Prod.fst).Nodup →
      (∀ s ∈ rest.map Prod.fst, s ∉ prob) →
      ∀ m ∈ mkMetrics t prob prev rest,
        (m.status = Status.needsAttention ↔
          m.stage ∈ prob ++ flagged t prev rest) := by
  intro rest
  induction rest with
  | nil => intro prob prev _ _ m hm; simp [mkMetrics] at hm
  | cons p rest ih =>
    intro prob prev hnd hdisj m hm
    obtain ⟨s, c⟩ := p
    have hs_notin_rest : s ∉ rest.map Prod.fst :=
      (List.nodup_cons.mp (by simpa using hnd)).1
    have hs_notin_prob : s ∉ prob := hdisj s (by simp)
    rw [show mkMetrics t prob prev ((s, c) :: rest) =
      { stage := s, count := c,
        conversionRate := round1 (((c : ℚ) / (prev : ℚ)) * 100),
        dropOff := round1 (100 - ((c : ℚ) / (prev : ℚ)) * 100),
        status := if s ∈ (if t < 100 - ((c : ℚ) / (prev : ℚ)) * 100 then
            prob ++ [s] else prob) then Status.needsAttention
          else Status.healthy }
        :: mkMetrics t (if t < 100 - ((c : ℚ) / (prev : ℚ)) * 100 then
            prob ++ [s] else prob) c rest from rfl] at hm
    rw [flagged_cons]
    rcases List.mem_cons.mp hm with rfl | hm2
    · by_cases hlt : t < 100 - ((c : ℚ) / (prev : ℚ)) * 100
      · simp only [if_pos hlt]
        constructor
        · intro _
          simp
        · intro _
          simp [List.mem_append]
      · simp only [if_neg hlt]
        constructor
        · intro habs
          rw [if_neg hs_notin_prob] at habs
          exact absurd habs (by simp)
        · intro hmem
          exfalso
          rcases List.mem_append.mp hmem with hmem1 | hmem2
          · exact hs_notin_prob hmem1
          · rcases List.mem_append.mp hmem2 with hmem3 | hmem4
            · simp at hmem3
            · exact hs_notin_rest (mem_flagged_sub hmem4)
    · have hnd2 : (rest.map Prod.fst).Nodup :=
        (List.nodup_cons.mp (by simpa using hnd)).2
      have hdisj2 : ∀ x ∈ rest.map Prod.fst,
          x ∉ (if t < 100 - ((c : ℚ) / (prev : ℚ)) * 100 then
            prob ++ [s] else prob) := by
        intro x hx
        have hxs : x ≠ s := fun hxe => hs_notin_rest (hxe ▸ hx)
        have hxp : x ∉ prob := hdisj x (by simp [hx])
        by_cases hlt : t < 100 - ((c : ℚ) / (prev : ℚ)) * 100
        · rw [if_pos hlt]
          intro hmem
          rcases List.mem_append.mp hmem with hmem1 | hmem2
          · exact hxp hmem1
          · simp at hmem2
            exact hxs hmem2
        · rw [if_neg hlt]
          exact hxp
      have := ih _ c hnd2 hdisj2 m hm2
      rw [this]
      by_cases hlt : t < 100 - ((c : ℚ) / (prev : ℚ)) * 100
      · simp [if_pos hlt, List.append_assoc]
      · simp [if_neg hlt]

/-- C9: in every analysis of a funnel with at least two stages, positive
counts and distinct stage names, a stage row has status Needs Attention
exactly when its name is a member of problematic_stages. -/
theorem C9_status_iff_problematic (data : List (String × ℤ)) (t : ℚ)
    (r : AnalysisResult) (h : analyze_funnel data t = some r)
    (h2 : 2 ≤ data.length) (hpos : ∀ p ∈ data, 0 < p.2)
    (hnd : (data.map Prod.fst).Nodup) :
    ∀ m ∈ r.stage_analysis,
      (m.status = Status.needsAttention ↔
        m.stage ∈ r.problematic_stages) := by
  obtain ⟨s0, c0, rest, heq, _, hsa, hprob, _, _, _⟩ :=
    analyze_funnel_eq_some h
  subst heq
  intro m hm
  rw [hsa] at hm
  have hs_notin_rest : s0 ∉ rest.map Prod.fst :=
    (List.nodup_cons.mp (by simpa using hnd)).1
  rcases List.mem_cons.mp hm with rfl | hm2
  · constructor
    · intro habs
      exact absurd habs (by simp)
    · intro hmem
      exfalso
      rw [hprob] at hmem
      exact hs_notin_rest (mem_flagged_sub hmem)
  · have hnd2 : (rest.map Prod.fst).Nodup :=
      (List.nodup_cons.mp (by simpa using hnd)).2
    have := mkMetrics_status rest [] c0 hnd2 (by simp) m hm2
    rw [hprob]
    simpa using this

/-- C9 witness: at the sample funnel with threshold 35, the MQL row has
status Needs Attention exactly when MQL is listed problematic. -/
theorem C9_status_iff_problematic_witness :
    (({ stage := "MQL", count := 125, conversionRate := 50, dropOff := 50,
        status := Status.needsAttention } : StageMetric).status =
          Status.needsAttention ↔
      ({ stage := "MQL", count := 125, conversionRate := 50, dropOff := 50,
         status := Status.needsAttention } : StageMetric).stage ∈
        sampleResult35.problematic_stages) :=
  C9_status_iff_problematic sampleFunnel 35 sampleResult35
    (by set_option maxRecDepth 4000 in with_unfolding_all decide)
    (by decide) (by decide) (by decide)
    { stage := "MQL", count := 125, conversionRate := 50, dropOff := 50,
      status := Status.needsAttention }
    (by with_unfolding_all decide)

theorem assoc_unique {l : List (String × ℚ)}
    (hnd : (l.map Prod.fst).Nodup) {p q : String × ℚ}
    (hp : p ∈ l) (hq : q ∈ l) (hfst : p.1 = q.1) : p = q := by
  induction l with
  | nil => simp at hp
  | cons r l ih =>
    have hr_notin : r.1 ∉ l.map Prod.fst :=
      (List.nodup_cons.mp (by simpa using hnd)).1
    have hnd2 : (l.map Prod.fst).Nodup :=
      (List.nodup_cons.mp (by simpa using hnd)).2
    rcases List.mem_cons.mp hp with rfl | hp2
    · rcases List.mem_cons.mp hq with rfl | hq2
      · rfl
      · exfalso
        exact hr_notin (hfst ▸ List.mem_map.mpr ⟨q, hq2, rfl⟩)
    · rcases List.mem_cons.mp hq with rfl | hq2
      · exfalso
        exact hr_notin (hfst ▸ List.mem_map.mpr ⟨p, hp2, rfl⟩)
      · exact ih hnd2 hp2 hq2

/-- C4: with a fixed funnel, problematic_stages at a higher threshold is a
subset of problematic_stages at a lower one, and a stage whose raw drop-off
is exactly the threshold is not flagged (membership uses strict
drop_off > threshold). -/
theorem C4_threshold_monotone (data : List (String × ℤ)) (t1 t2 : ℚ)
    (hle : t1 ≤ t2) (r1 r2 : AnalysisResult)
    (h1 : analyze_funnel data t1 = some r1)
    (h2 : analyze_funnel data t2 = some r2)
    (hnd : (data.map Prod.fst).Nodup) :
    (∀ s ∈ r2.problematic_stages, s ∈ r1.problematic_stages) ∧
    (∀ p ∈ raw_drop_offs data, p.2 = t1 →
      p.1 ∉ r1.problematic_stages) := by
  obtain ⟨s0, c0, rest, heq, _, _, hprob1, _, _, _⟩ :=
    analyze_funnel_eq_some h1
  subst heq
  obtain ⟨s0', c0', rest', heq', _, _, hprob2, _, _, _⟩ :=
    analyze_funnel_eq_some h2
  injection heq' with hp ht
  injection hp with hs hc
  subst hs
  subst hc
  subst ht
  have hnd2 : (rest.map Prod.fst).Nodup :=
    (List.nodup_cons.mp (by simpa using hnd)).2
  constructor
  · intro s hmem
    rw [hprob2] at hmem
    rw [hprob1]
    rcases mem_flagged_iff.mp hmem with ⟨p, hp, hlt, rfl⟩
    exact mem_flagged_iff.mpr ⟨p, hp, lt_of_le_of_lt hle hlt, rfl⟩
  · intro p hpmem hpeq hmem
    rw [hprob1] at hmem
    have hpq : p ∈ dropList c0 rest := by
      simpa [raw_drop_offs] using hpmem
    rcases mem_flagged_iff.mp hmem with ⟨q, hq, hlt, hfst⟩
    have hdl_nd : ((dropList c0 rest).map Prod.fst).Nodup := by
      rw [dropList_fst]
      exact hnd2
    have : p = q := assoc_unique hdl_nd hpq hq hfst.symm
    rw [← this] at hlt
    rw [hpeq] at hlt
    exact lt_irrefl t1 hlt

/-- C4 witness: at the sample funnel, with thresholds 50 and 60, Lead (flagged
at 60) is also flagged at 50, while MQL with drop-off exactly 50 is not
flagged at threshold 50. -/
theorem C4_threshold_monotone_witness :
    ( "Lead" : String) ∈ sampleResult50.problematic_stages ∧
    ( "MQL" : String) ∉ sampleResult50.problematic_stages :=
  ⟨(C4_threshold_monotone sampleFunnel 50 60 (by norm_num)
      sampleResult50 sampleResult60
      (by set_option maxRecDepth 4000 in with_unfolding_all decide)
      (by set_option maxRecDepth 4000 in with_unfolding_all decide)
      (by decide)).1 "Lead" (by decide),
   (C4_threshold_monotone sampleFunnel 50 60 (by norm_num)
      sampleResult50 sampleResult60
      (by set_option maxRecDepth 4000 in with_unfolding_all decide)
      (by set_option maxRecDepth 4000 in with_unfolding_all decide)
      (by decide)).2 ( "MQL", 50) (by with_unfolding_all decide)
      (by norm_num)⟩

theorem le_foldr_max (l : List ℚ) (b : ℚ) : b ≤ l.foldr max b := by
  induction l with
  | nil => exact le_refl b
  | cons a l ih => exact le_trans ih (le_max_right a _)

theorem foldr_max_seed_comm (l : List ℚ) (a b : ℚ) :
    l.foldr max (max a b) = max a (l.foldr max b) := by
  induction l with
  | nil => rfl
  | cons c l ih =>
    show max c (l.foldr max (max a b)) = max a (max c (l.foldr max b))
    rw [ih, max_left_comm]

theorem mem_le_foldr_max {l : List ℚ} {x : ℚ} (h : x ∈ l) (b : ℚ) :
    x ≤ l.foldr max b := by
  induction l with
  | nil => simp at h
  | cons a l ih =>
    rcases List.mem_cons.mp h with rfl | h2
    · exact le_max_left x _
    · exact le_trans (ih h2) (le_max_right a _)

theorem find?_congr_mem {α : Type} {p q : α → Bool} :
    ∀ (l : List α), (∀ a ∈ l, p a = q a) → l.find? p = l.find? q := by
  intro l
  induction l with
  | nil => intro _; rfl
  | cons a l ih =>
    intro h
    have ha := h a (by simp)
    by_cases hpa : p a = true
    · rw [List.find?_cons_of_pos _ hpa, List.find?_cons_of_pos _ (ha ▸ hpa)]
    · have hpa2 : p a = false := Bool.eq_false_iff.mpr hpa
      rw [List.find?_cons_of_neg _ (by simp [hpa2]),
        List.find?_cons_of_neg _ (by simp [← ha, hpa2]),
        ih (fun x hx => h x (List.mem_cons_of_mem _ hx))]

theorem biggestDropGo_spec :
    ∀ (ms : List StageMetric) (s : Option String) (v : ℚ),
      biggestDropGo ms s v =
        if v < (ms.map (fun m => m.dropOff)).foldr max v then
          ((ms.find? (fun m => decide
              ((ms.map (fun m => m.dropOff)).foldr max v ≤ m.dropOff))).map
            (fun m => m.stage),
           (ms.map (fun m => m.dropOff)).foldr max v)
        else (s, v) := by
  intro ms
  induction ms with
  | nil =>
    intro s v
    simp [biggestDropGo]
  | cons m ms ih =>
    intro s v
    have hM : ((m :: ms).map (fun m => m.dropOff)).foldr max v =
        max m.dropOff ((ms.map (fun m => m.dropOff)).foldr max v) := rfl
    by_cases hvd : v < m.dropOff
    · have hseed : (ms.map (fun m => m.dropOff)).foldr max m.dropOff =
          max m.dropOff ((ms.map (fun m => m.dropOff)).foldr max v) := by
        rw [← foldr_max_seed_comm, max_eq_left (le_of_lt hvd)]
      have hgo : biggestDropGo (m :: ms) s v =
          biggestDropGo ms (some m.stage) m.dropOff := by
        simp [biggestDropGo, hvd]
      rw [hgo, ih]
      by_cases hdD : m.dropOff < (ms.map (fun m => m.dropOff)).foldr max m.dropOff
      · rw [if_pos hdD]
        have hcond : v < ((m :: ms).map (fun m => m.dropOff)).foldr max v := by
          rw [hM, ← hseed]
          exact lt_trans hvd hdD
        rw [if_pos hcond]
        have hMeq : ((m :: ms).map (fun m => m.dropOff)).foldr max v =
            (ms.map (fun m => m.dropOff)).foldr max m.dropOff := by
          rw [hM, ← hseed]
        have hfind : (m :: ms).find? (fun x => decide
            (((m :: ms).map (fun m => m.dropOff)).foldr max v ≤ x.dropOff)) =
            ms.find? (fun x => decide
              ((ms.map (fun m => m.dropOff)).foldr max m.dropOff ≤ x.dropOff)) := by
          rw [List.find?_cons_of_neg, hMeq]
          simp only [decide_eq_true_eq, not_le, hMeq]
          exact hdD
        rw [hfind, hMeq]
      · rw [if_neg hdD]
        have hDd : (ms.map (fun m => m.dropOff)).foldr max m.dropOff =
            m.dropOff :=
          le_antisymm (not_lt.mp hdD) (le_foldr_max _ _)
        have hMeq : ((m :: ms).map (fun m => m.dropOff)).foldr max v =
            m.dropOff := by
          rw [hM, ← hseed, hDd]
        have hcond : v < ((m :: ms).map (fun m => m.dropOff)).foldr max v := by
          rw [hMeq]; exact hvd
        rw [if_pos hcond]
        have hfind : (m :: ms).find? (fun x => decide
            (((m :: ms).map (fun m => m.dropOff)).foldr max v ≤ x.dropOff)) =
            some m := by
          apply List.find?_cons_of_pos
          rw [hMeq]
          simp
        rw [hfind, hMeq]
        rfl
    · have hgo : biggestDropGo (m :: ms) s v = biggestDropGo ms s v := by
        simp [biggestDropGo, hvd]
      have hdv : m.dropOff ≤ v := not_lt.mp hvd
      have hvD : v ≤ (ms.map (fun m => m.dropOff)).foldr max v :=
        le_foldr_max _ _
      have hMeq : ((m :: ms).map (fun m => m.dropOff)).foldr max v =
          (ms.map (fun m => m.dropOff)).foldr max v := by
        rw [hM, max_eq_right (le_trans hdv hvD)]
      rw [hgo, ih]
      by_cases hvDlt : v < (ms.map (fun m => m.dropOff)).foldr max v
      · rw [if_pos hvDlt]
        have hcond : v < ((m :: ms).map (fun m => m.dropOff)).foldr max v := by
          rw [hMeq]; exact hvDlt
        rw [if_pos hcond]
        have hfind : (m :: ms).find? (fun x => decide
            (((m :: ms).map (fun m => m.dropOff)).foldr max v ≤ x.dropOff)) =
            ms.find? (fun x => decide
              ((ms.map (fun m => m.dropOff)).foldr max v ≤ x.dropOff)) := by
          rw [List.find?_cons_of_neg, hMeq]
          simp only [decide_eq_true_eq, not_le, hMeq]
          exact lt_of_le_of_lt hdv hvDlt
        rw [hfind, hMeq]
      · rw [if_neg hvDlt]
        have hcond : ¬ v < ((m :: ms).map (fun m => m.dropOff)).foldr max v := by
          rw [hMeq]; exact hvDlt
        rw [if_neg hcond]

set_option maxRecDepth 8000 in
/-- C5 counterexample: on the two-stage funnel Visitor 3, Lead 1, the raw
Lead drop-off is 200/3 = 66.666..., but the reported biggest_drop_value is
the one-decimal rounded 66.7, not the full-precision value. -/
theorem C5_counterexample :
    analyze_funnel thirdFunnel 35 = some thirdResult ∧
    raw_drop_offs thirdFunnel = [( "Lead", 200/3)] ∧
    thirdResult.biggest_drop_stage = some "Lead" ∧
    thirdResult.biggest_drop_value ≠ 200/3 := by
  refine ⟨?_, ?_, rfl, ?_⟩
  · with_unfolding_all decide
  · with_unfolding_all decide
  · with_unfolding_all decide

/-- C5 amended: biggest_drop_value is the largest ROUNDED drop-off among the
non-baseline rows (the one-decimal table value, not the unrounded drop-off),
floored at 0, and biggest_drop_stage is the first non-baseline row attaining
it, none when no rounded drop-off is positive. -/
theorem C5_biggest_drop_rounded (data : List (String × ℤ)) (t : ℚ)
    (r : AnalysisResult) (h : analyze_funnel data t = some r) :
    r.biggest_drop_value = specBiggestDropValue (r.stage_analysis.drop 1) ∧
    r.biggest_drop_stage = specBiggestDropStage (r.stage_analysis.drop 1) := by
  obtain ⟨s0, c0, rest, _, _, hsa, _, hbds, hbdv, _⟩ :=
    analyze_funnel_eq_some h
  rw [hsa]
  simp only [List.drop_succ_cons, List.drop_zero]
  set L := mkMetrics t [] c0 rest with hL
  have hspec := biggestDropGo_spec L none 0
  have hM0 : (L.map (fun m => m.dropOff)).foldr max 0 =
      specBiggestDropValue L := rfl
  have h0le : (0 : ℚ) ≤ specBiggestDropValue L := by
    rw [← hM0]; exact le_foldr_max _ _
  by_cases hpos : (0 : ℚ) < specBiggestDropValue L
  · rw [hM0, if_pos hpos] at hspec
    constructor
    · rw [hbdv, hspec]
    · rw [hbds, hspec]
      show _ = specBiggestDropStage L
      rw [specBiggestDropStage, if_pos hpos]
      have hcong : L.find? (fun m => decide (specBiggestDropValue L ≤ m.dropOff)) =
          L.find? (fun m => decide (m.dropOff = specBiggestDropValue L)) := by
        apply find?_congr_mem
        intro m hm
        have hle : m.dropOff ≤ specBiggestDropValue L := by
          rw [← hM0]
          exact mem_le_foldr_max (List.mem_map.mpr ⟨m, hm, rfl⟩) 0
        by_cases heq : m.dropOff = specBiggestDropValue L
        · simp [heq]
        · simp only [decide_eq_decide]
          constructor
          · intro hge
            exact absurd (le_antisymm hle hge) heq
          · intro habs
            exact absurd habs heq
      rw [hcong]
  · have hz : specBiggestDropValue L = 0 := le_antisymm (not_lt.mp hpos) h0le
    rw [hM0] at hspec
    rw [hz] at hspec
    rw [if_neg (lt_irrefl 0)] at hspec
    constructor
    · rw [hbdv, hspec, hz]
    · rw [hbds, hspec]
      show _ = specBiggestDropStage L
      rw [specBiggestDropStage, if_neg hpos]

/-- C5 amended, witness: the property at the two-stage funnel Visitor 3,
Lead 1 with threshold 35. -/
theorem C5_biggest_drop_rounded_witness :
    thirdResult.biggest_drop_value =
      specBiggestDropValue (thirdResult.stage_analysis.drop 1) ∧
    thirdResult.biggest_drop_stage =
      specBiggestDropStage (thirdResult.stage_analysis.drop 1) :=
  C5_biggest_drop_rounded thirdFunnel 35 thirdResult
    (by set_option maxRecDepth 8000 in with_unfolding_all decide)

theorem rat_floor_eq (q : ℚ) : Rat.floor q = ⌊q⌋ := by
  rw [Rat.floor_def', Rat.floor_def]

theorem pytrunc_eq_floor {q : ℚ} (h : 0 ≤ q) : pytrunc q = ⌊q⌋ := by
  rw [pytrunc, if_neg (not_lt.mpr h), rat_floor_eq]

theorem pytrunc_nonneg {q : ℚ} (h : 0 ≤ q) : 0 ≤ pytrunc q := by
  rw [pytrunc_eq_floor h]
  exact Int.floor_nonneg.mpr h

theorem dictGet_traffic_pos (s : String) : 0 < dictGet traffic_multipliers s 1 := by
  rw [dictGet]
  rcases hf : traffic_multipliers.find? (fun p => decide (p.1 = s)) with _ | p
  · simp only [hf]
    norm_num
  · simp only [hf]
    have hp := List.mem_of_find?_eq_some hf
    simp only [traffic_multipliers, List.mem_cons, List.not_mem_nil,
      or_false] at hp
    rcases hp with rfl | rfl | rfl | rfl | rfl <;> norm_num

theorem dictGet_time_pos (s : String) : 0 < dictGet time_multipliers s 1 := by
  rw [dictGet]
  rcases hf : time_multipliers.find? (fun p => decide (p.1 = s)) with _ | p
  · simp only [hf]
    norm_num
  · simp only [hf]
    have hp := List.mem_of_find?_eq_some hf
    simp only [time_multipliers, List.mem_cons, List.not_mem_nil,
      or_false] at hp
    rcases hp with rfl | rfl | rfl <;> norm_num

theorem traffic_multiplier_of_pos (sources : List String) (h : sources ≠ []) :
    0 < traffic_multiplier_of sources := by
  rw [traffic_multiplier_of]
  apply div_pos
  · apply List.sum_pos
    · intro x hx
      rcases List.mem_map.mp hx with ⟨s, _, rfl⟩
      exact dictGet_traffic_pos s
    · simpa using h
  · exact_mod_cast List.length_pos.mpr h

theorem clamp_step (raw : ℤ) (h0 : 0 ≤ raw) (r : ℚ) (hr0 : 0 ≤ r)
    (hr1 : r < 1) :
    max 1 (pytrunc ((raw : ℤ) * r)) = max 1 ⌊((max 1 raw : ℤ) : ℚ) * r⌋ := by
  rcases lt_or_ge raw 1 with hlt | hge
  · have hraw0 : raw = 0 := le_antisymm (by omega) h0
    subst hraw0
    have h1 : pytrunc ((0 : ℤ) * r) = 0 := by
      rw [show ((0 : ℤ) : ℚ) * r = 0 by push_cast; ring]
      rw [pytrunc_eq_floor le_rfl]
      exact Int.floor_zero
    have h2 : (max 1 (0 : ℤ)) = 1 := rfl
    rw [h1, h2]
    have h3 : ⌊((1 : ℤ) : ℚ) * r⌋ = 0 := by
      rw [show ((1 : ℤ) : ℚ) * r = r by push_cast; ring]
      exact Int.floor_eq_zero_iff.mpr ⟨hr0, hr1⟩
    rw [h3]
    simp
  · have hmax : max 1 raw = raw := max_eq_right hge
    rw [hmax, pytrunc_eq_floor]
    positivity

set_option maxRecDepth 4000 in
/-- C6 counterexample: with time period Last 30 Days, sources Google Ads,
Facebook Ads and Email (mean multiplier 13/15) and jitter exactly 1, the code
produces 866 visitors (truncation), while round(1000 x 1 x 13/15 x 1) = 867. -/
theorem C6_counterexample :
    generate_funnel_data "Last 30 Days"
        (some [ "Google Ads", "Facebook Ads", "Email"]) 1 0 0 0 1 false 0 =
      some [( "Visitor", 866), ( "Lead", 1), ( "MQL", 1), ( "SQL", 1)] ∧
    1000 * dictGet time_multipliers "Last 30 Days" 1 *
        traffic_multiplier_of [ "Google Ads", "Facebook Ads", "Email"] * 1 =
      2600/3 ∧
    specRound (2600/3) = 867 ∧
    ((866 : ℤ) ≠ 867) := by
  have hGA : dictGet traffic_multipliers "Google Ads" 1 = 12/10 := by
    with_unfolding_all decide
  have hFB : dictGet traffic_multipliers "Facebook Ads" 1 = 1 := by
    with_unfolding_all decide
  have hEM : dictGet traffic_multipliers "Email" 1 = 4/10 := by
    with_unfolding_all decide
  have hT : dictGet time_multipliers "Last 30 Days" 1 = 1 := by
    with_unfolding_all decide
  have hmean : traffic_multiplier_of [ "Google Ads", "Facebook Ads", "Email"]
      = 13/15 := by
    rw [traffic_multiplier_of]
    simp [hGA, hFB, hEM]
    norm_num
  refine ⟨?_, ?_, ?_, by decide⟩
  · have hgen : generate_funnel_data "Last 30 Days"
        (some [ "Google Ads", "Facebook Ads", "Email"]) 1 0 0 0 1 false 0 =
        some (generate_realistic_funnel 866 0 0 0 1 false 0) := by
      simp only [generate_funnel_data]
      rw [if_neg (by decide :
        ¬ ([ "Google Ads", "Facebook Ads", "Email"] : List String).length = 0)]
      rw [hT, hmean]
      congr 1
      have hV : pytrunc (((pytrunc ((1000 : ℚ) * 1 * (13/15)) : ℤ) : ℚ) * 1)
          = 866 := by
        with_unfolding_all decide
      rw [hV]
    rw [hgen]
    have h866 : generate_realistic_funnel 866 0 0 0 1 false 0 =
        [( "Visitor", 866), ( "Lead", 1), ( "MQL", 1), ( "SQL", 1)] := by
      with_unfolding_all decide
    rw [h866]
  · rw [hT, hmean]
    norm_num
  · with_unfolding_all decide

/-- C6 amended: for every time period and non-empty source list, the visitor
count is int(int(1000 x time_multiplier x mean_traffic_multiplier) x jitter),
truncated toward zero at both steps, not round(1000 x time x mean x jitter);
the mean is the arithmetic mean of per-source multipliers with unknown labels
contributing 1.0. -/
theorem C6_visitor_count_truncated (tp : String) (sources : List String)
    (jitter v2l l2m m2s injectDraw : ℚ) (chooseLM : Bool) (degradedDraw : ℚ)
    (hs : sources ≠ []) :
    ∃ restStages,
      generate_funnel_data tp (some sources) jitter v2l l2m m2s injectDraw
          chooseLM degradedDraw =
        some (( "Visitor",
          pytrunc ((pytrunc (1000 * dictGet time_multipliers tp 1 *
            traffic_multiplier_of sources) : ℤ) * jitter)) :: restStages) := by
  have hlen : ¬ sources.length = 0 := by
    intro hh
    exact hs (List.length_eq_zero.mp hh)
  simp only [generate_funnel_data, generate_realistic_funnel]
  rw [if_neg hlen]
  exact ⟨_, rfl⟩

/-- C6 amended, witness: instantiated at time period Last 7 Days with the
single source Organic and jitter 1. -/
theorem C6_visitor_count_truncated_witness :
    ∃ restStages,
      generate_funnel_data "Last 7 Days" (some [ "Organic"]) 1 0 0 0 1 false
          0 =
        some (( "Visitor",
          pytrunc ((pytrunc (1000 * dictGet time_multipliers "Last 7 Days" 1 *
            traffic_multiplier_of [ "Organic"]) : ℤ) * 1)) :: restStages) :=
  C6_visitor_count_truncated "Last 7 Days" [ "Organic"] 1 0 0 0 1 false 0
    (by decide)

theorem generate_realistic_funnel_spec (visitors : ℤ)
    (v2l l2m m2s injectDraw : ℚ) (chooseLM : Bool) (degradedDraw : ℚ)
    (h0 : 0 ≤ visitors) (hv2l : 0 ≤ v2l)
    (hl2m0 : 0 ≤ l2m) (hl2m1 : l2m < 1)
    (hm2s0 : 0 ≤ m2s) (hm2s1 : m2s < 1)
    (hdeg0 : 0 ≤ degradedDraw) (hdeg1 : degradedDraw < 1) :
    ∃ lead mql sql,
      generate_realistic_funnel visitors v2l l2m m2s injectDraw chooseLM
          degradedDraw =
        [( "Visitor", visitors), ( "Lead", lead), ( "MQL", mql),
          ( "SQL", sql)] ∧
      1 ≤ lead ∧ 1 ≤ mql ∧ 1 ≤ sql ∧
      lead = max 1 ⌊(visitors : ℚ) * v2l⌋ ∧
      mql = max 1 ⌊(lead : ℚ) *
        (if injectDraw < 3/10 ∧ chooseLM then degradedDraw else l2m)⌋ ∧
      sql = max 1 ⌊(mql : ℚ) *
        (if injectDraw < 3/10 ∧ ¬chooseLM then degradedDraw else m2s)⌋ := by
  have heffL0 : 0 ≤ (if injectDraw < 3/10 ∧ chooseLM then degradedDraw
      else l2m) := by
    split_ifs <;> assumption
  have heffL1 : (if injectDraw < 3/10 ∧ chooseLM then degradedDraw
      else l2m) < 1 := by
    split_ifs <;> assumption
  have heffM0 : 0 ≤ (if injectDraw < 3/10 ∧ ¬chooseLM then degradedDraw
      else m2s) := by
    split_ifs <;> assumption
  have heffM1 : (if injectDraw < 3/10 ∧ ¬chooseLM then degradedDraw
      else m2s) < 1 := by
    split_ifs <;> assumption
  have hq0 : (0 : ℚ) ≤ (visitors : ℚ) := by exact_mod_cast h0
  have hlead0 : 0 ≤ pytrunc ((visitors : ℚ) * v2l) :=
    pytrunc_nonneg (mul_nonneg hq0 hv2l)
  have hmql0 : 0 ≤ pytrunc (((pytrunc ((visitors : ℚ) * v2l) : ℤ) : ℚ) *
      (if injectDraw < 3/10 ∧ chooseLM then degradedDraw else l2m)) :=
    pytrunc_nonneg (mul_nonneg (by exact_mod_cast hlead0) heffL0)
  refine ⟨_, _, _, rfl, le_max_left 1 _, le_max_left 1 _, le_max_left 1 _,
    ?_, ?_, ?_⟩
  · rw [pytrunc_eq_floor (mul_nonneg hq0 hv2l)]
  · exact clamp_step _ hlead0 _ heffL0 heffL1
  · exact clamp_step _ hmql0 _ heffM0 heffM1

/-- C7: for every time period, non-empty source list, nonnegative jitter and
rate draws within their drawn ranges, the generator returns exactly the four
stages Visitor, Lead, MQL, SQL in that order, each downstream count equal to
the floor of the previous stage count times its drawn (possibly degraded)
conversion rate, clamped to a minimum of 1. -/
theorem C7_four_stages (tp : String) (sources : List String)
    (jitter v2l l2m m2s injectDraw : ℚ) (chooseLM : Bool) (degradedDraw : ℚ)
    (hs : sources ≠ []) (hj : 0 ≤ jitter) (hv2l : 0 ≤ v2l)
    (hl2m0 : 0 ≤ l2m) (hl2m1 : l2m < 1)
    (hm2s0 : 0 ≤ m2s) (hm2s1 : m2s < 1)
    (hdeg0 : 0 ≤ degradedDraw) (hdeg1 : degradedDraw < 1) :
    ∃ v lead mql sql,
      generate_funnel_data tp (some sources) jitter v2l l2m m2s injectDraw
          chooseLM degradedDraw =
        some [( "Visitor", v), ( "Lead", lead), ( "MQL", mql),
          ( "SQL", sql)] ∧
      0 ≤ v ∧ 1 ≤ lead ∧ 1 ≤ mql ∧ 1 ≤ sql ∧
      lead = max 1 ⌊(v : ℚ) * v2l⌋ ∧
      mql = max 1 ⌊(lead : ℚ) *
        (if injectDraw < 3/10 ∧ chooseLM then degradedDraw else l2m)⌋ ∧
      sql = max 1 ⌊(mql : ℚ) *
        (if injectDraw < 3/10 ∧ ¬chooseLM then degradedDraw else m2s)⌋ := by
  have hlen : ¬ sources.length = 0 := fun hh => hs (List.length_eq_zero.mp hh)
  have hT := dictGet_time_pos tp
  have hM := traffic_multiplier_of_pos sources hs
  have hIn0 : (0 : ℚ) ≤ 1000 * dictGet time_multipliers tp 1 *
      traffic_multiplier_of sources :=
    mul_nonneg (mul_nonneg (by norm_num) (le_of_lt hT)) (le_of_lt hM)
  have hVin : 0 ≤ pytrunc (1000 * dictGet time_multipliers tp 1 *
      traffic_multiplier_of sources) := pytrunc_nonneg hIn0
  have hV0 : 0 ≤ pytrunc (((pytrunc (1000 * dictGet time_multipliers tp 1 *
      traffic_multiplier_of sources) : ℤ) : ℚ) * jitter) :=
    pytrunc_nonneg (mul_nonneg (by exact_mod_cast hVin) hj)
  obtain ⟨lead, mql, sql, hfun, hl, hm, hsq, he1, he2, he3⟩ :=
    generate_realistic_funnel_spec
      (pytrunc (((pytrunc (1000 * dictGet time_multipliers tp 1 *
        traffic_multiplier_of sources) : ℤ) : ℚ) * jitter))
      v2l l2m m2s injectDraw chooseLM degradedDraw hV0 hv2l
      hl2m0 hl2m1 hm2s0 hm2s1 hdeg0 hdeg1
  refine ⟨_, lead, mql, sql, ?_, hV0, hl, hm, hsq, he1, he2, he3⟩
  simp only [generate_funnel_data]
  rw [if_neg hlen]
  rw [hfun]

/-- C7 witness: instantiated at time period Last 30 Days, single source
Google Ads, jitter 1 and rates 1/50, 1/2, 3/10 with no degradation draw. -/
theorem C7_four_stages_witness :
    ∃ v lead mql sql,
      generate_funnel_data "Last 30 Days" (some [ "Google Ads"]) 1 (1/50)
          (1/2) (3/10) 1 false (1/5) =
        some [( "Visitor", v), ( "Lead", lead), ( "MQL", mql),
          ( "SQL", sql)] ∧
      0 ≤ v ∧ 1 ≤ lead ∧ 1 ≤ mql ∧ 1 ≤ sql ∧
      lead = max 1 ⌊(v : ℚ) * (1/50)⌋ ∧
      mql = max 1 ⌊(lead : ℚ) *
        (if (1 : ℚ) < 3/10 ∧ false then (1/5 : ℚ) else 1/2)⌋ ∧
      sql = max 1 ⌊(mql : ℚ) *
        (if (1 : ℚ) < 3/10 ∧ ¬false then (1/5 : ℚ) else 3/10)⌋ :=
  C7_four_stages "Last 30 Days" [ "Google Ads"] 1 (1/50) (1/2) (3/10) 1
    false (1/5) (by decide) (by norm_num) (by norm_num) (by norm_num)
    (by norm_num) (by norm_num) (by norm_num) (by norm_num) (by norm_num)

/-- C10: omitting traffic_sources (Python None) behaves exactly as passing
the default list Google Ads, Facebook Ads, whose mean traffic multiplier is
1.1; the default time period label Last 30 Days has multiplier 1.0. -/
theorem C10_default_arguments :
    (∀ (tp : String) (jitter v2l l2m m2s injectDraw : ℚ) (chooseLM : Bool)
        (degradedDraw : ℚ),
      generate_funnel_data tp none jitter v2l l2m m2s injectDraw chooseLM
          degradedDraw =
        generate_funnel_data tp (some [ "Google Ads", "Facebook Ads"]) jitter
          v2l l2m m2s injectDraw chooseLM degradedDraw) ∧
    traffic_multiplier_of [ "Google Ads", "Facebook Ads"] = 11/10 ∧
    dictGet time_multipliers "Last 30 Days" 1 = 1 := by
  refine ⟨fun tp jitter v2l l2m m2s injectDraw chooseLM degradedDraw => rfl,
    ?_, ?_⟩
  · have hGA : dictGet traffic_multipliers "Google Ads" 1 = 12/10 := by
      with_unfolding_all decide
    have hFB : dictGet traffic_multipliers "Facebook Ads" 1 = 1 := by
      with_unfolding_all decide
    rw [traffic_multiplier_of]
    simp [hGA, hFB]
    norm_num
  · with_unfolding_all decide

theorem dictSet_append {l : List (String × ImpactEntry)} {k : String}
    {v : ImpactEntry} (h : k ∉ l.map Prod.fst) :
    dictSet l k v = l ++ [(k, v)] := by
  rw [dictSet, if_neg]
  intro habs
  rcases List.any_eq_true.mp habs with ⟨p, hp, hpk⟩
  exact h (List.mem_map.mpr ⟨p, hp, by simpa using hpk⟩)

theorem foldl_dictSet_filterMap
    (g : StageMetric → Option (String × ImpactEntry))
    (f : List (String × ImpactEntry) → StageMetric →
      List (String × ImpactEntry))
    (hf : ∀ acc m, f acc m =
      match g m with
      | none => acc
      | some kv => dictSet acc kv.1 kv.2)
    (hkey : ∀ m kv, g m = some kv → kv.1 = m.stage) :
    ∀ (L : List StageMetric) (acc : List (String × ImpactEntry)),
      (L.map (fun m => m.stage)).Nodup →
      (∀ m ∈ L, m.stage ∉ acc.map Prod.fst) →
      L.foldl f acc = acc ++ L.filterMap g := by
  intro L
  induction L with
  | nil => intro acc _ _; simp
  | cons m L ih =>
    intro acc hnd hdisj
    have hnd2 : (L.map (fun m => m.stage)).Nodup :=
      (List.nodup_cons.mp (by simpa using hnd)).2
    have hm_notin : m.stage ∉ L.map (fun m => m.stage) :=
      (List.nodup_cons.mp (by simpa using hnd)).1
    rw [List.foldl_cons, hf]
    rcases hgm : g m with _ | kv
    · dsimp only
      rw [List.filterMap_cons_none hgm]
      exact ih acc hnd2 (fun x hx => hdisj x (List.mem_cons_of_mem _ hx))
    · have hkv : kv.1 = m.stage := hkey m kv hgm
      have hknot : kv.1 ∉ acc.map Prod.fst := by
        rw [hkv]
        exact hdisj m (by simp)
      dsimp only
      rw [dictSet_append hknot, List.filterMap_cons_some hgm]
      have hdisj2 : ∀ x ∈ L, x.stage ∉ (acc ++ [kv]).map Prod.fst := by
        intro x hx
        rw [List.map_append]
        intro hmem
        rcases List.mem_append.mp hmem with h1 | h2
        · exact hdisj x (List.mem_cons_of_mem _ hx) h1
        · simp only [List.map_cons, List.map_nil, List.mem_singleton] at h2
          exact hm_notin (List.mem_map.mpr ⟨x, hx, h2.trans hkv⟩)
      rw [ih (acc ++ [kv]) hnd2 hdisj2, List.append_assoc]
      rfl

theorem findPrevIndex_at :
    ∀ (L : List StageMetric), ((L.map (fun m => m.stage)).Nodup) →
      ∀ (k : Nat) (hk : k < L.length) (j : Nat),
        findPrevIndex (L.get ⟨k, hk⟩).stage L j =
          some (((j : ℤ) + (k : ℤ)) - 1) := by
  intro L
  induction L with
  | nil => intro _ k hk; simp at hk
  | cons m L ih =>
    intro hnd k hk j
    have hnd2 : (L.map (fun m => m.stage)).Nodup :=
      (List.nodup_cons.mp (by simpa using hnd)).2
    have hm_notin : m.stage ∉ L.map (fun m => m.stage) :=
      (List.nodup_cons.mp (by simpa using hnd)).1
    cases k with
    | zero =>
      show findPrevIndex m.stage (m :: L) j = some ((j : ℤ) + 0 - 1)
      rw [findPrevIndex, if_pos rfl]
      norm_num
    | succ k2 =>
      have hk2 : k2 < L.length := Nat.succ_lt_succ_iff.mp hk
      have hget : ((m :: L).get ⟨k2 + 1, hk⟩) = L.get ⟨k2, hk2⟩ := rfl
      rw [hget, findPrevIndex, if_neg, ih hnd2 k2 hk2 (j + 1)]
      · congr 1
        push_cast
        ring
      · intro habs
        apply hm_notin
        rw [habs]
        exact List.mem_map.mpr ⟨L.get ⟨k2, hk2⟩, List.get_mem L k2 hk2, rfl⟩

theorem getD_of_lt :
    ∀ (l : List StageMetric) (n : Nat) (d : StageMetric) (h : n < l.length),
      l.getD n d = l.get ⟨n, h⟩ := by
  intro l
  induction l with
  | nil => intro n d h; simp at h
  | cons a l ih =>
    intro n d h
    cases n with
    | zero => rfl
    | succ n2 => exact ih n2 d (Nat.succ_lt_succ_iff.mp h)

theorem mkMetrics_shape {t : ℚ} :
    ∀ (rest : List (String × ℤ)) (prob : List String) (prev : ℤ),
      (mkMetrics t prob prev rest).map (fun m => (m.stage, m.count)) =
        rest := by
  intro rest
  induction rest with
  | nil => intro prob prev; rfl
  | cons p rest ih =>
    intro prob prev
    obtain ⟨s, c⟩ := p
    show ((s, c) :: (mkMetrics t _ c rest).map (fun m => (m.stage, m.count)))
      = (s, c) :: rest
    rw [ih]

theorem impactStep_eq_impactOf (r : AnalysisResult)
    (acc : List (String × ImpactEntry)) (m : StageMetric) :
    impactStep r acc m =
      match impactOf r m with
      | none => acc
      | some kv => dictSet acc kv.1 kv.2 := by
  by_cases hmem : m.stage ∈ r.problematic_stages
  · simp only [impactStep, impactOf, if_pos hmem]
    rcases hidx : findPrevIndex m.stage r.stage_analysis 0 with _ | i
    · rfl
    · by_cases hge : 0 ≤ i
      · simp only [if_pos hge]
      · simp only [if_neg hge]
  · simp only [impactStep, impactOf, if_neg hmem]

theorem impactOf_key (r : AnalysisResult) (m : StageMetric)
    (kv : String × ImpactEntry) (h : impactOf r m = some kv) :
    kv.1 = m.stage := by
  by_cases hmem : m.stage ∈ r.problematic_stages
  · simp only [impactOf, if_pos hmem] at h
    rcases hidx : findPrevIndex m.stage r.stage_analysis 0 with _ | i
    · rw [hidx] at h
      simp at h
    · rw [hidx] at h
      dsimp only at h
      by_cases hge : 0 ≤ i
      · rw [if_pos hge] at h
        obtain ⟨h1, _⟩ := Prod.mk.injEq _ _ _ _ ▸ (Option.some.inj h).symm
        exact h1
      · rw [if_neg hge] at h
        simp at h
  · simp only [impactOf, if_neg hmem] at h
    simp at h

theorem filterMap_keys_eq
    (g : StageMetric → Option (String × ImpactEntry))
    (P : List String)
    (hkey : ∀ m kv, g m = some kv → kv.1 = m.stage) :
    ∀ L : List StageMetric,
      (∀ m ∈ L, ((g m).isSome ↔ m.stage ∈ P)) →
      (L.filterMap g).map Prod.fst =
        (L.filter (fun m => decide (m.stage ∈ P))).map
          (fun m => m.stage) := by
  intro L
  induction L with
  | nil => intro _; rfl
  | cons m L ih =>
    intro hpt
    have hm := hpt m (by simp)
    have hrest : ∀ x ∈ L, ((g x).isSome ↔ x.stage ∈ P) :=
      fun x hx => hpt x (List.mem_cons_of_mem _ hx)
    rcases hgm : g m with _ | kv
    · have hnotP : m.stage ∉ P := by
        rw [← hm, hgm]
        simp
      rw [List.filterMap_cons_none hgm, List.filter_cons,
        if_neg (by simpa using hnotP), ih hrest]
    · have hP : m.stage ∈ P := by
        rw [← hm, hgm]
        simp
      rw [List.filterMap_cons_some hgm, List.filter_cons,
        if_pos (by simpa using hP), List.map_cons, List.map_cons,
        ih hrest, hkey m kv hgm]

theorem filter_mem_flagged :
    ∀ (dl : List (String × ℚ)), (dl.map Prod.fst).Nodup → ∀ (t : ℚ),
      (dl.map Prod.fst).filter (fun x => decide
        (x ∈ (dl.filter (fun p => decide (t < p.2))).map Prod.fst)) =
      (dl.filter (fun p => decide (t < p.2))).map Prod.fst := by
  intro dl
  induction dl with
  | nil => intro _ t; rfl
  | cons a dl ih =>
    intro hnd t
    obtain ⟨s, q⟩ := a
    have hs_notin : s ∉ dl.map Prod.fst :=
      (List.nodup_cons.mp (by simpa using hnd)).1
    have hnd2 : (dl.map Prod.fst).Nodup :=
      (List.nodup_cons.mp (by simpa using hnd)).2
    have hKsub : ∀ x,
        x ∈ (dl.filter (fun p => decide (t < p.2))).map Prod.fst →
        x ∈ dl.map Prod.fst := by
      intro x hx
      rcases List.mem_map.mp hx with ⟨p, hp, rfl⟩
      exact List.mem_map.mpr ⟨p, (List.mem_filter.mp hp).1, rfl⟩
    by_cases hq : t < q
    · have hF : ((s, q) :: dl).filter (fun p => decide (t < p.2)) =
          (s, q) :: dl.filter (fun p => decide (t < p.2)) := by
        rw [List.filter_cons, if_pos (by simpa using hq)]
      rw [hF, List.map_cons, List.map_cons, List.filter_cons,
        if_pos (by simp)]
      congr 1
      have hcong : (dl.map Prod.fst).filter (fun x => decide
          (x ∈ s :: (dl.filter (fun p => decide (t < p.2))).map Prod.fst)) =
          (dl.map Prod.fst).filter (fun x => decide
          (x ∈ (dl.filter (fun p => decide (t < p.2))).map Prod.fst)) := by
        apply List.filter_congr
        intro x hx
        have hxs : x ≠ s := fun he => hs_notin (he ▸ hx)
        simp only [List.mem_cons, decide_eq_decide]
        constructor
        · rintro (rfl | hh)
          · exact absurd rfl hxs
          · exact hh
        · intro hh
          exact Or.inr hh
      rw [hcong, ih hnd2 t]
    · have hF : ((s, q) :: dl).filter (fun p => decide (t < p.2)) =
          dl.filter (fun p => decide (t < p.2)) := by
        rw [List.filter_cons, if_neg (by simpa using hq)]
      rw [hF, List.map_cons, List.filter_cons, if_neg]
      · exact ih hnd2 t
      · simp only [decide_eq_true_eq]
        intro habs
        exact hs_notin (hKsub s habs)

/-- C8: calculate_potential_impact has one entry per problematic stage, in
stage order; each entry projects the predecessor-stage count (located by
stage order) times (100 - threshold)/100, truncated to an integer, with
potential_increase the (possibly negative) difference and
improvement_percentage 0 when the current count is not positive. -/
theorem C8_impact_entries (data : List (String × ℤ)) (t : ℚ)
    (r : AnalysisResult) (h : analyze_funnel data t = some r)
    (hnd : (data.map Prod.fst).Nodup) :
    ((calculate_potential_impact r).map Prod.fst = r.problematic_stages) ∧
    (∀ (i : Nat) (hi : i + 1 < r.stage_analysis.length),
      (r.stage_analysis.get ⟨i + 1, hi⟩).stage ∈ r.problematic_stages →
      ((r.stage_analysis.get ⟨i + 1, hi⟩).stage,
        specImpactEntry
          (r.stage_analysis.get ⟨i, Nat.lt_of_succ_lt hi⟩).count
          (r.stage_analysis.get ⟨i + 1, hi⟩).count
          r.threshold_used)
        ∈ calculate_potential_impact r) := by
  obtain ⟨s0, c0, rest, heq, hc0, hsa, hprob, _, _, hthr⟩ :=
    analyze_funnel_eq_some h
  subst heq
  have hnd_tail : (rest.map Prod.fst).Nodup :=
    (List.nodup_cons.mp (by simpa using hnd)).2
  have hstage_tail : (mkMetrics t [] c0 rest).map (fun m => m.stage) =
      rest.map Prod.fst := by
    have h2 := congrArg (List.map Prod.fst) (mkMetrics_shape (t := t) rest [] c0)
    rw [List.map_map] at h2
    exact h2
  have hndL : (r.stage_analysis.map (fun m => m.stage)).Nodup := by
    rw [hsa, List.map_cons, hstage_tail]
    simpa using hnd
  have hs0P : s0 ∉ r.problematic_stages := by
    rw [hprob]
    intro hm
    exact (List.nodup_cons.mp (by simpa using hnd)).1 (mem_flagged_sub hm)
  have hfold : calculate_potential_impact r =
      r.stage_analysis.filterMap (impactOf r) := by
    rw [calculate_potential_impact,
      foldl_dictSet_filterMap (impactOf r) (impactStep r)
        (impactStep_eq_impactOf r) (impactOf_key r) r.stage_analysis []
        hndL (by simp), List.nil_append]
  have hsome : ∀ (k : Nat) (hk : k < r.stage_analysis.length),
      ((impactOf r (r.stage_analysis.get ⟨k, hk⟩)).isSome ↔
        (r.stage_analysis.get ⟨k, hk⟩).stage ∈ r.problematic_stages) := by
    intro k hk
    by_cases hmem : (r.stage_analysis.get ⟨k, hk⟩).stage ∈
        r.problematic_stages
    · simp only [hmem, iff_true]
      have hk0 : k ≠ 0 := by
        intro hke
        subst hke
        have hhead := List.get_of_eq hsa ⟨0, hk⟩
        rw [hhead] at hmem
        exact hs0P hmem
      obtain ⟨k2, rfl⟩ := Nat.exists_eq_succ_of_ne_zero hk0
      have hidx := findPrevIndex_at r.stage_analysis hndL (k2 + 1) hk 0
      simp only [impactOf, if_pos hmem, hidx]
      rw [if_pos (by push_cast; omega)]
      simp
    · simp only [hmem, iff_false, impactOf, if_neg hmem]
      simp
  have hptwise : ∀ m ∈ r.stage_analysis,
      ((impactOf r m).isSome ↔ m.stage ∈ r.problematic_stages) := by
    intro m hm
    rcases List.mem_iff_get.mp hm with ⟨⟨k, hk⟩, hget⟩
    rw [← hget]
    exact hsome k hk
  constructor
  · rw [hfold,
      filterMap_keys_eq (impactOf r) r.problematic_stages (impactOf_key r)
        r.stage_analysis hptwise]
    have hstep2 : (r.stage_analysis.filter
        (fun m => decide (m.stage ∈ r.problematic_stages))).map
          (fun m => m.stage) =
        (r.stage_analysis.map (fun m => m.stage)).filter
          (fun x => decide (x ∈ r.problematic_stages)) :=
      (List.filter_map (p := fun x => decide (x ∈ r.problematic_stages))
        (fun m => m.stage) r.stage_analysis).symm
    rw [hstep2, hsa, List.map_cons, hstage_tail, List.filter_cons,
      if_neg (by simpa using hs0P), hprob, ← dropList_fst rest c0, flagged]
    exact filter_mem_flagged (dropList c0 rest)
      (by rw [dropList_fst]; exact hnd_tail) t
  · intro i hi hmem
    rw [hfold]
    apply List.mem_filterMap.mpr
    refine ⟨r.stage_analysis.get ⟨i + 1, hi⟩, List.get_mem _ _ _, ?_⟩
    have hidx := findPrevIndex_at r.stage_analysis hndL (i + 1) hi 0
    simp only [impactOf, if_pos hmem, hidx]
    rw [if_pos (by push_cast; omega)]
    have htoNat : ((((0 : Nat) : ℤ) + (((i + 1 : Nat)) : ℤ)) - 1).toNat = i := by
      push_cast
      omega
    rw [htoNat, getD_of_lt r.stage_analysis i default (Nat.lt_of_succ_lt hi)]
    rfl

/-- C8 witness: at the sample funnel with threshold 35, the impact keys are
exactly Lead, MQL, SQL and the MQL entry projects from the Lead count. -/
theorem C8_impact_entries_witness :
    ((calculate_potential_impact sampleResult35).map Prod.fst =
      sampleResult35.problematic_stages) ∧
    ((sampleResult35.stage_analysis.get ⟨2, by decide⟩).stage,
      specImpactEntry
        (sampleResult35.stage_analysis.get ⟨1, by decide⟩).count
        (sampleResult35.stage_analysis.get ⟨2, by decide⟩).count
        sampleResult35.threshold_used) ∈
      calculate_potential_impact sampleResult35 :=
  ⟨(C8_impact_entries sampleFunnel 35 sampleResult35
      (by set_option maxRecDepth 4000 in with_unfolding_all decide)
      (by decide)).1,
   (C8_impact_entries sampleFunnel 35 sampleResult35
      (by set_option maxRecDepth 4000 in with_unfolding_all decide)
      (by decide)).2 1 (by decide)
      (by with_unfolding_all decide)⟩
